import Mathlib

/-!
Verification of the `kv-repl-barebones` transaction engine
(`storage/storage.go`): an in-memory key-value store with nested
transactions. The Go code is shallowly embedded below: the durable map
(`kvStore`, a Go `map[string]string`) becomes a function
`String → Option String`, the parent-linked transaction chain (`tx`)
becomes an inductive with an explicit base constructor (Go's
`parent == nil`), and each method of `Store` becomes a pure function
returning the new store and the value/error the Go method returns.
-/

set_option autoImplicit false

namespace KVRepl

/-- Embeds Go `operation`: a unit of a transaction. `isWrite = true`
writes `value` under `key`; `isWrite = false` is a tombstone removing
`key` (its `value` is the zero value `""`). -/
structure operation where
  key : String
  value : String
  isWrite : Bool
deriving DecidableEq

/-- Embeds the Go sentinel errors of package `storage`, plus the
`ErrUnsupportedCommand` returned by `Process` for an unknown command. -/
inductive Err where
  | noCurrentTransaction
  | keyNotFound
  | unsupportedCommand
deriving DecidableEq

/-- Embeds Go `kvStore` (`map[string]string`) as a lookup function. -/
def kvStore : Type := String → Option String

/-- Embeds `kvStore.modify`: write sets the key, tombstone deletes it. -/
def kvStore.modify (kv : kvStore) (op : operation) : kvStore :=
  match op.isWrite with
  | true => fun k => if k = op.key then some op.value else kv k
  | false => fun k => if k = op.key then none else kv k

/-- Embeds Go `tx`, the parent-linked transaction frame chain. Go's
`parent *tx` is `nil` exactly at the base frame, so the chain is an
inductive: `base ops` is the root frame, `frame ops parent` a frame
pushed by `begin`. -/
inductive tx where
  | base (operations : List operation)
  | frame (operations : List operation) (parent : tx)
deriving DecidableEq

/-- The `operations` field of a frame. -/
def tx.operations : tx → List operation
  | .base ops => ops
  | .frame ops _ => ops

/-- Replace the `operations` field of a frame, keeping its parent link
(models Go's in-place mutation of `t.operations`). -/
def tx.withOperations : tx → List operation → tx
  | .base _, ops => .base ops
  | .frame _ parent, ops => .frame ops parent

/-- Embeds `tx.isRoot`: true iff the frame has no parent. -/
def tx.isRoot : tx → Bool
  | .base _ => true
  | .frame _ _ => false

/-- Embeds `tx.hasOperations`: true iff the frame's log is non-empty. -/
def tx.hasOperations (t : tx) : Bool :=
  decide (0 < t.operations.length)

/-- Number of frames above the base (the spec's "depth"). -/
def tx.depth : tx → Nat
  | .base _ => 0
  | .frame _ parent => parent.depth + 1

/-- The base frame's operation log at the bottom of the chain. -/
def tx.baseOperations : tx → List operation
  | .base ops => ops
  | .frame _ parent => parent.baseOperations

/-- Embeds Go `Store`: the durable map plus the current-frame pointer. -/
structure Store where
  kv : kvStore
  currTx : tx

/-- Embeds `NewStore`: empty durable map, fresh base frame. -/
def NewStore : Store :=
  { kv := fun _ => none, currTx := .base [] }

/-- The reverse-chronological scan of one frame's log performed by the
inner loop of Go `Store.read` (`for i := len(ops)-1; i >= 0; i--`):
returns the most recent entry matching `key`, if any. -/
def scanReverse (ops : List operation) (key : String) : Option operation :=
  match ops with
  | [] => none
  | op :: rest =>
    match scanReverse rest key with
    | some r => some r
    | none => if op.key = key then some op else none

/-- Embeds the loop of Go `Store.read`: `currentTx` walks the chain
(`for !currentTx.isRoot()`), but each iteration scans the operations of
the store's CURRENT frame (`s.currTx.operations`, here `curOps`), not
of the visited frame; at the base the loop exits and the durable map is
consulted. -/
def readLoop (curOps : List operation) (key : String) (kv : kvStore) : tx → Except Err String
  | .base _ =>
    match kv key with
    | some v => .ok v
    | none => .error .keyNotFound
  | .frame _ parent =>
    match scanReverse curOps key with
    | some op =>
      match op.isWrite with
      | true => .ok op.value
      | false => .error .keyNotFound
    | none => readLoop curOps key kv parent

/-- Embeds Go `Store.read`. -/
def Store.read (s : Store) (key : String) : Except Err String :=
  readLoop s.currTx.operations key s.kv s.currTx

/-- Spec-side read-resolution algorithm, following the words of §4.1:
walk the stack from the current frame through `parent` links, stopping
before the base frame; at each VISITED frame scan ITS log in reverse
chronological order; a matching write returns its value, a matching
tombstone returns NotFound; with no match in any visited frame, fall
back to the Durable Map. Written for comparison with `Store.read`. -/
def readResolutionSpec (key : String) (kv : kvStore) : tx → Except Err String
  | .base _ =>
    match kv key with
    | some v => .ok v
    | none => .error .keyNotFound
  | .frame ops parent =>
    match scanReverse ops key with
    | some op =>
      match op.isWrite with
      | true => .ok op.value
      | false => .error .keyNotFound
    | none => readResolutionSpec key kv parent

/-- Spec-side `read` per §4.1, resolving against the current frame
chain and the durable map. -/
def Store.readSpec (s : Store) (key : String) : Except Err String :=
  readResolutionSpec key s.kv s.currTx

/-- Embeds Go `Store.modify`: at the root frame the operation is
applied to the durable map directly, otherwise it is appended to the
current frame's log. -/
def Store.modify (s : Store) (op : operation) : Store :=
  if s.currTx.isRoot then
    { s with kv := s.kv.modify op }
  else
    { s with currTx := s.currTx.withOperations (s.currTx.operations ++ [op]) }

/-- Embeds Go `Store.write`. -/
def Store.write (s : Store) (key value : String) : Store :=
  s.modify { key := key, value := value, isWrite := true }

/-- Embeds Go `Store.remove`: pre-check with `read`, fail with
KeyNotFound if the key is not visible, else route a tombstone through
`modify`. Returns the new store and the Go method's `error`. -/
def Store.remove (s : Store) (key : String) : Store × Option Err :=
  match s.read key with
  | .error _ => (s, some .keyNotFound)
  | .ok _ => (s.modify { key := key, value := "", isWrite := false }, none)

/-- Embeds step 1 of Go `Store.commit`: the loop appending a copy of
each operation of the current frame's log, one at a time, to the end of
the parent frame's log. -/
def appendCopies (parentOps : List operation) (ops : List operation) : List operation :=
  ops.foldl (fun acc op => acc ++ [{ key := op.key, value := op.value, isWrite := op.isWrite }]) parentOps

/-- Embeds the flush loop of Go `Store.commit`: apply each operation of
`ops` to the durable map in order. -/
def flushOps (kv : kvStore) (ops : List operation) : kvStore :=
  ops.foldl kvStore.modify kv

/-- Embeds Go `Store.commit`: at the root, fail with
NoActiveTransaction; otherwise append the current log to the parent,
make the parent current, and if the new current frame is the root and
has operations, flush them into the durable map and clear the log. -/
def Store.commit (s : Store) : Store × Option Err :=
  match s.currTx with
  | .base _ => (s, some .noCurrentTransaction)
  | .frame ops parent =>
    let p := parent.withOperations (appendCopies parent.operations ops)
    if p.isRoot && p.hasOperations then
      ({ kv := flushOps s.kv p.operations, currTx := p.withOperations [] }, none)
    else
      ({ s with currTx := p }, none)

/-- Embeds Go `Store.discard`: a no-op at the root frame, otherwise the
current frame is popped. -/
def Store.discard (s : Store) : Store :=
  match s.currTx with
  | .base _ => s
  | .frame _ parent => { s with currTx := parent }

/-- Embeds Go `Store.begin`: push a fresh frame whose parent is the
current frame. -/
def Store.begin (s : Store) : Store :=
  { s with currTx := .frame [] s.currTx }

/-- Go constant `Write`. -/
def WriteCmd : String := "write"
/-- Go constant `Read`. -/
def ReadCmd : String := "read"
/-- Go constant `Remove`. -/
def RemoveCmd : String := "remove"
/-- Go constant `Begin`. -/
def BeginCmd : String := "begin"
/-- Go constant `Commit`. -/
def CommitCmd : String := "commit"
/-- Go constant `Discard`. -/
def DiscardCmd : String := "discard"

/-- Embeds Go `Store.Process`: dispatch a command string to the engine,
returning the new store, the result value and the error (the Go
method's `(string, error)` pair). An unknown command fails with
UnsupportedCommand and leaves the store unchanged. -/
def Store.Process (s : Store) (command key value : String) : Store × String × Option Err :=
  if command = WriteCmd then
    (s.write key value, "", none)
  else if command = ReadCmd then
    match s.read key with
    | .ok v => (s, v, none)
    | .error e => (s, "", some e)
  else if command = RemoveCmd then
    ((s.remove key).1, "", (s.remove key).2)
  else if command = BeginCmd then
    (s.begin, "", none)
  else if command = DiscardCmd then
    (s.discard, "", none)
  else if command = CommitCmd then
    ((s.commit).1, "", (s.commit).2)
  else
    (s, "", some .unsupportedCommand)

/-- Run a sequence of `Process` invocations (command, key, value),
threading the store; models any client session against the engine. -/
def runProg (s : Store) : List (String × String × String) → Store
  | [] => s
  | (c, k, v) :: rest => runProg (s.Process c k v).1 rest

/-- Spec-side effect of a single operation on the Durable Map, following
the words of §4.1 step 3: "write → set, tombstone → delete". Written
for comparison with `kvStore.modify`. -/
def applyOpSpec (kv : kvStore) (op : operation) : kvStore :=
  fun k => if k = op.key then (if op.isWrite then some op.value else none) else kv k

/-- Spec-side flush, following the words of §4.1 step 3: "apply every
operation in the base frame's log to the Durable Map, in order"; a
later operation on a key overwrites an earlier one because application
is strictly chronological. -/
def applyLogSpec (kv : kvStore) : List operation → kvStore
  | [] => kv
  | op :: rest => applyLogSpec (applyOpSpec kv op) rest

/-- Spec-side commit protocol for depth ≥ 1, following the words of
§4.1: concatenate the current frame's log, in original order, onto the
end of the parent's log (no reordering, no deduplication); make the
parent the current frame; exactly when the new current frame is the
base frame and its log is non-empty, flush that log into the Durable
Map in chronological order and clear it. At the base frame (depth 0)
this returns the store unchanged; the comparison with `Store.commit`
is made under the claim's hypothesis depth ≥ 1. -/
def Store.commitSpec (s : Store) : Store :=
  match s.currTx with
  | .base _ => s
  | .frame ops parent =>
    let p := parent.withOperations (parent.operations ++ ops)
    if p.isRoot && p.hasOperations then
      { kv := applyLogSpec s.kv p.operations, currTx := p.withOperations [] }
    else
      { s with currTx := p }

end KVRepl

namespace KVRepl

/-! ### Helper lemmas -/

/-- The reverse scan of `l ++ [op]` finds `op` first when its key
matches: the most recently appended entry wins. -/
theorem scanReverse_append_last (l : List operation) (op : operation) (key : String)
    (h : op.key = key) : scanReverse (l ++ [op]) key = some op := by
  induction l with
  | nil => simp [scanReverse, h]
  | cons a l ih => simp [scanReverse, ih]

/-- The copy-one-at-a-time loop of `commit` step 1 is list
concatenation. -/
theorem appendCopies_eq_append (ops parentOps : List operation) :
    appendCopies parentOps ops = parentOps ++ ops := by
  induction ops generalizing parentOps with
  | nil => simp [appendCopies]
  | cons op rest ih =>
    have hstep : appendCopies parentOps (op :: rest) = appendCopies (parentOps ++ [op]) rest := rfl
    rw [hstep, ih]
    simp

/-- One step of the Go flush loop agrees with the spec-side effect of a
single operation on the Durable Map. -/
theorem kvStore.modify_eq_applyOpSpec (kv : kvStore) (op : operation) :
    kv.modify op = applyOpSpec kv op := by
  funext k
  cases hw : op.isWrite <;> simp [kvStore.modify, applyOpSpec, hw]

/-- The Go flush loop agrees with the spec-side chronological
application of a whole log. -/
theorem flushOps_eq_applyLogSpec (ops : List operation) (kv : kvStore) :
    flushOps kv ops = applyLogSpec kv ops := by
  induction ops generalizing kv with
  | nil => rfl
  | cons op rest ih =>
    show flushOps (kv.modify op) rest = applyLogSpec (applyOpSpec kv op) rest
    rw [kvStore.modify_eq_applyOpSpec]
    exact ih _

/-- `modify` never changes the base frame's log. -/
theorem modify_baseOperations (s : Store) (op : operation) :
    ((s.modify op).currTx).baseOperations = s.currTx.baseOperations := by
  obtain ⟨kv, t⟩ := s
  cases t <;>
    simp [Store.modify, tx.isRoot, tx.withOperations, tx.operations, tx.baseOperations]

/-- `remove` never changes the base frame's log. -/
theorem remove_baseOperations (s : Store) (key : String) :
    (((s.remove key).1).currTx).baseOperations = s.currTx.baseOperations := by
  unfold Store.remove
  cases hr : s.read key
  · simp [hr]
  · simp [hr, modify_baseOperations]

/-- `commit` restores an empty base-frame log. -/
theorem commit_baseOperations (s : Store) (h : s.currTx.baseOperations = []) :
    (((s.commit).1).currTx).baseOperations = [] := by
  obtain ⟨kv, t⟩ := s
  cases t with
  | base ops => simpa [Store.commit, tx.baseOperations] using h
  | frame ops parent =>
    cases parent with
    | base pb =>
      simp only [Store.commit, tx.withOperations, tx.isRoot, Bool.true_and]
      split
      · simp [tx.baseOperations, tx.withOperations]
      · rename_i hcond
        simp only [tx.hasOperations, tx.operations, decide_eq_true_eq, not_lt,
          Nat.le_zero, List.length_eq_zero] at hcond
        simp [tx.baseOperations, tx.operations, hcond]
    | frame pOps pParent =>
      simp only [tx.baseOperations] at h
      simp [Store.commit, tx.withOperations, tx.isRoot, tx.baseOperations, h]

/-- `modify` leaves the durable map unchanged away from the root
frame. -/
theorem modify_kv_of_not_root (s : Store) (op : operation) (h : s.currTx.isRoot = false) :
    (s.modify op).kv = s.kv := by
  simp [Store.modify, h]

/-- `remove` leaves the durable map unchanged away from the root
frame. -/
theorem remove_kv_of_not_root (s : Store) (key : String) (h : s.currTx.isRoot = false) :
    ((s.remove key).1).kv = s.kv := by
  unfold Store.remove
  cases hr : s.read key
  · simp [hr]
  · simp [hr, modify_kv_of_not_root, h]

/-- `commit` leaves the durable map unchanged unless it unwinds the
stack to the base frame (depth 1 before the call). -/
theorem commit_kv_of_depth_ne_one (s : Store) (h : s.currTx.depth ≠ 1) :
    ((s.commit).1).kv = s.kv := by
  obtain ⟨kv, t⟩ := s
  cases t with
  | base ops => rfl
  | frame ops parent =>
    cases parent with
    | base pb => exact absurd (by simp [tx.depth]) h
    | frame pOps pParent =>
      simp [Store.commit, tx.withOperations, tx.isRoot]

end KVRepl

namespace KVRepl

/-- `Process` preserves an empty base-frame log, whatever the command. -/
theorem process_preserves_empty_base (s : Store) (c k v : String)
    (h : s.currTx.baseOperations = []) :
    (((s.Process c k v).1).currTx).baseOperations = [] := by
  unfold Store.Process
  by_cases h1 : c = WriteCmd
  · rw [if_pos h1]
    simpa [Store.write, modify_baseOperations] using h
  · rw [if_neg h1]
    by_cases h2 : c = ReadCmd
    · rw [if_pos h2]
      cases hr : s.read k <;> simpa [hr] using h
    · rw [if_neg h2]
      by_cases h3 : c = RemoveCmd
      · rw [if_pos h3]
        simpa [remove_baseOperations] using h
      · rw [if_neg h3]
        by_cases h4 : c = BeginCmd
        · rw [if_pos h4]
          simpa [Store.begin, tx.baseOperations] using h
        · rw [if_neg h4]
          by_cases h5 : c = DiscardCmd
          · rw [if_pos h5]
            obtain ⟨kv, t⟩ := s
            cases t <;> simp_all [Store.discard, tx.baseOperations]
          · rw [if_neg h5]
            by_cases h6 : c = CommitCmd
            · rw [if_pos h6]
              exact commit_baseOperations s h
            · rw [if_neg h6]
              simpa using h

/-- An empty base-frame log is preserved along any command sequence. -/
theorem runProg_preserves_empty_base (prog : List (String × String × String)) (s : Store)
    (h : s.currTx.baseOperations = []) :
    ((runProg s prog).currTx).baseOperations = [] := by
  induction prog generalizing s with
  | nil => exact h
  | cons step rest ih =>
    obtain ⟨c, k, v⟩ := step
    exact ih _ (process_preserves_empty_base s c k v h)

/-! ### Claim theorems -/

/-- C5: base-frame-empty invariant. After any sequence of completed
engine operations starting from a fresh engine, the base frame's
operations sequence is empty. -/
theorem base_frame_log_empty (prog : List (String × String × String)) :
    ((runProg NewStore prog).currTx).baseOperations = [] :=
  runProg_preserves_empty_base prog NewStore rfl

/-- C6: write/read round-trip. In every store state, for every key `k`
and value `v`, `write(k, v)` followed by `read(k)` returns `v`, both at
depth 0 and with any number of transactions open. -/
theorem write_read_roundtrip (s : Store) (k v : String) :
    (s.write k v).read k = .ok v := by
  obtain ⟨kv, t⟩ := s
  cases t with
  | base ops =>
    simp [Store.write, Store.modify, Store.read, readLoop, tx.isRoot, tx.operations,
      kvStore.modify]
  | frame ops parent =>
    simp [Store.write, Store.modify, Store.read, tx.isRoot, tx.operations,
      tx.withOperations, readLoop, scanReverse_append_last]

/-- C7: `commit()` fails with NoActiveTransaction exactly when the
current frame is the base frame, leaving the store unchanged in that
case; at depth ≥ 1 it never fails. -/
theorem commit_error_iff (s : Store) :
    (s.currTx.isRoot = true → s.commit = (s, some Err.noCurrentTransaction))
    ∧ (s.currTx.isRoot = false → (s.commit).2 = none) := by
  obtain ⟨kv, t⟩ := s
  cases t with
  | base ops =>
    exact ⟨fun _ => rfl, fun h => by simp [tx.isRoot] at h⟩
  | frame ops parent =>
    refine ⟨fun h => by simp [tx.isRoot] at h, fun _ => ?_⟩
    simp only [Store.commit]
    split <;> rfl

/-- Witness for C7: on a fresh engine `commit` fails with
NoActiveTransaction and changes nothing; after one `begin` it
succeeds. -/
theorem commit_error_iff_witness :
    NewStore.commit = (NewStore, some Err.noCurrentTransaction)
    ∧ ((NewStore.begin).commit).2 = none :=
  ⟨(commit_error_iff NewStore).1 rfl, (commit_error_iff NewStore.begin).2 rfl⟩

/-- C9: `begin()` immediately followed by `discard()` is the identity
on the whole store state: durable map, frame chain and current-frame
pointer are exactly as before. -/
theorem begin_discard_identity (s : Store) : (s.begin).discard = s := rfl

/-- C10: the read command leaves the store — durable map, every frame's
log, and the current-frame pointer — unchanged, whether it returns a
value or KeyNotFound. -/
theorem read_leaves_store_unchanged (s : Store) (key value : String) :
    (s.Process ReadCmd key value).1 = s := by
  unfold Store.Process
  rw [if_neg (by decide), if_pos rfl]
  cases hr : s.read key <;> simp [hr]

end KVRepl

namespace KVRepl

/-- C1: the read-resolution claim fails on the code. In the state
reached by `begin; write k A; begin`, the ancestor frame holds the
write of `A`, yet `read(k)` returns KeyNotFound: the loop in
`Store.read` scans only the current frame's log (the Go inner loop
reads `s.currTx.operations` instead of the visited `currentTx`'s), so
it never sees ancestor edits and falls through to the empty durable
map. The spec-side resolution returns `A` from the ancestor frame. -/
theorem read_ignores_ancestor_frames :
    (runProg NewStore
        [(BeginCmd, "", ""), (WriteCmd, "k", "A"), (BeginCmd, "", "")]).read ("k")
      = .error .keyNotFound
    ∧ (runProg NewStore
        [(BeginCmd, "", ""), (WriteCmd, "k", "A"), (BeginCmd, "", "")]).readSpec ("k")
      = .ok ("A") :=
  ⟨rfl, rfl⟩

/-- C2: at depth ≥ 1 the code's `commit` coincides with the spec-side
commit protocol — concatenate the current log onto the parent's in
original order, pop to the parent, and exactly when the new current
frame is the base frame with a non-empty log, flush it into the durable
map chronologically and clear it — and reports no error. -/
theorem commit_matches_spec (s : Store) (h : s.currTx.isRoot = false) :
    s.commit = (s.commitSpec, none) := by
  obtain ⟨kv, t⟩ := s
  cases t with
  | base ops => simp [tx.isRoot] at h
  | frame ops parent =>
    by_cases hc : ((parent.withOperations (parent.operations ++ ops)).isRoot
        && (parent.withOperations (parent.operations ++ ops)).hasOperations) = true
    · simp [Store.commit, Store.commitSpec, appendCopies_eq_append, hc,
        flushOps_eq_applyLogSpec]
    · simp [Store.commit, Store.commitSpec, appendCopies_eq_append, hc]

/-- Witness for C2: after a single `begin` on a fresh engine the
current frame is not the base frame and `commit` matches the spec-side
protocol. -/
theorem commit_matches_spec_witness :
    ((NewStore.begin).currTx.isRoot = false)
    ∧ (NewStore.begin).commit = ((NewStore.begin).commitSpec, none) :=
  ⟨rfl, commit_matches_spec NewStore.begin rfl⟩

/-- C3: the double-remove claim fails on the code when a `begin`
intervenes. After `write k A; begin; remove k` the tombstone sits in
the first open frame; after a further `begin`, the pre-check `read` of
the second `remove` cannot see that tombstone (it scans only the new,
empty current frame and falls through to the durable map, which still
holds `A`), so the second `remove` also succeeds instead of failing
with KeyNotFound. Both removes below return no error. -/
theorem second_remove_after_begin_succeeds :
    ((runProg NewStore [(WriteCmd, "k", "A"), (BeginCmd, "", "")]).remove ("k")).2 = none
    ∧ ((runProg NewStore
        [(WriteCmd, "k", "A"), (BeginCmd, "", ""), (RemoveCmd, "k", ""),
          (BeginCmd, "", "")]).remove ("k")).2 = none :=
  ⟨rfl, rfl⟩

/-- C4 counterexample: a `write` on a fresh engine — no commit call
anywhere — changes the Durable Map at key `k` from absent to `v`, so
the Durable Map is not mutated only inside commits. -/
theorem write_mutates_durable_map_outside_commit :
    (NewStore.Process WriteCmd ("k") ("v")).1.kv ("k") = some ("v")
    ∧ NewStore.kv ("k") = none :=
  ⟨rfl, rfl⟩

/-- C4 (amended): the Durable Map is mutated only by the flush step of
a commit that unwinds the stack to the base frame (depth 1 before the
call), or by a write/remove executed while the current frame is the
base frame (depth 0); every other engine operation leaves it
unchanged. -/
theorem durable_map_mutators (s : Store) (c k v : String) :
    ((s.Process c k v).1.kv = s.kv)
    ∨ (c = CommitCmd ∧ s.currTx.depth = 1)
    ∨ ((c = WriteCmd ∨ c = RemoveCmd) ∧ s.currTx.isRoot = true) := by
  unfold Store.Process
  by_cases h1 : c = WriteCmd
  · rw [if_pos h1]
    by_cases hr : s.currTx.isRoot = true
    · exact Or.inr (Or.inr ⟨Or.inl h1, hr⟩)
    · refine Or.inl ?_
      rw [Bool.not_eq_true] at hr
      exact modify_kv_of_not_root s _ hr
  · rw [if_neg h1]
    by_cases h2 : c = ReadCmd
    · rw [if_pos h2]
      exact Or.inl (by cases hrd : s.read k <;> simp [hrd])
    · rw [if_neg h2]
      by_cases h3 : c = RemoveCmd
      · rw [if_pos h3]
        by_cases hr : s.currTx.isRoot = true
        · exact Or.inr (Or.inr ⟨Or.inr h3, hr⟩)
        · refine Or.inl ?_
          rw [Bool.not_eq_true] at hr
          exact remove_kv_of_not_root s k hr
      · rw [if_neg h3]
        by_cases h4 : c = BeginCmd
        · rw [if_pos h4]
          exact Or.inl rfl
        · rw [if_neg h4]
          by_cases h5 : c = DiscardCmd
          · rw [if_pos h5]
            refine Or.inl ?_
            obtain ⟨kv, t⟩ := s
            cases t <;> rfl
          · rw [if_neg h5]
            by_cases h6 : c = CommitCmd
            · rw [if_pos h6]
              by_cases hd : s.currTx.depth = 1
              · exact Or.inr (Or.inl ⟨h6, hd⟩)
              · exact Or.inl (commit_kv_of_depth_ne_one s hd)
            · rw [if_neg h6]
              exact Or.inl rfl

/-- C8: tombstone shadowing across a discard. From a fresh engine, for
every key `k`: `write(k, A); begin(); remove(k)` succeeds, a subsequent
`read(k)` returns KeyNotFound (the tombstone shadows the committed
value), and after `discard()` the read returns `A` again. -/
theorem tombstone_shadowing_discard (k : String) :
    ((NewStore.write k ("A")).begin.remove k).2 = none
    ∧ ((NewStore.write k ("A")).begin.remove k).1.read k = .error .keyNotFound
    ∧ ((((NewStore.write k ("A")).begin.remove k).1.discard).read k) = .ok ("A") := by
  refine ⟨?_, ?_, ?_⟩ <;>
    simp [NewStore, Store.write, Store.begin, Store.remove, Store.modify, Store.read,
      Store.discard, readLoop, scanReverse, kvStore.modify, tx.isRoot, tx.operations,
      tx.withOperations]

end KVRepl
